import Mathlib

/-!
Verification of the residual-constrained PINN training core of
`PINN_cont_customized_rev.ipynb` (heat equation `u_t - u_xx = 0`).

The notebook's tensor computations are all elementwise over a batch, and the
reference architecture introduces no cross-batch coupling, so a batched tensor
is embedded as a `Fin n → ℝ` family of exact real values.  Reverse-mode
automatic differentiation (`torch.autograd.grad` with `grad_outputs = ones` and
`create_graph = True`) computes, per batch element, the exact mathematical
derivative of the element's scalar computation graph with respect to the chosen
leaf; it is embedded as symbolic differentiation `pd` over a deep embedding
`Exp` of the smooth scalar expressions the network can build from its two
inputs, and `pd` is proved to agree with Mathlib's `deriv`/`iteratedDeriv`.
A network ("model") is the `Exp` describing its output as a function of the two
input columns `x` (variable `Var.X`) and `t` (variable `Var.T`).

PyTorch's leaf/`requires_grad` discipline is embedded in `BTensor`: a tensor
derived by an arithmetic operation from a `requires_grad` tensor is not a leaf,
and assigning `requires_grad` on a non-leaf raises
`RuntimeError: you can only change requires_grad flags of leaf variables`,
embedded as `Except AutodiffError` with error `graphViolation`.
-/

namespace PINN

/-- The two input coordinates of the network: spatial `x` and temporal `t`. -/
inductive Var : Type where
  | X : Var
  | T : Var

/-- Deep embedding of the smooth scalar expressions a batch element's
computation graph is built from: the two leaf inputs, real constants, and the
arithmetic and transcendental operations the notebook applies. -/
inductive Exp : Type where
  | var : Var → Exp
  | const : ℝ → Exp
  | add : Exp → Exp → Exp
  | sub : Exp → Exp → Exp
  | mul : Exp → Exp → Exp
  | neg : Exp → Exp
  | exp : Exp → Exp
  | sin : Exp → Exp
  | cos : Exp → Exp

/-- Value of an expression at input values `x` (for `Var.X`) and `t` (for `Var.T`). -/
noncomputable def eval : Exp → ℝ → ℝ → ℝ
  | .var .X, x, _ => x
  | .var .T, _, t => t
  | .const c, _, _ => c
  | .add a b, x, t => eval a x t + eval b x t
  | .sub a b, x, t => eval a x t - eval b x t
  | .mul a b, x, t => eval a x t * eval b x t
  | .neg a, x, t => -(eval a x t)
  | .exp a, x, t => Real.exp (eval a x t)
  | .sin a, x, t => Real.sin (eval a x t)
  | .cos a, x, t => Real.cos (eval a x t)

/-- One reverse-mode differentiation pass: the symbolic first-order
derivative of an expression with respect to one of the two leaf variables.
This is the embedding of a single
`torch.autograd.grad(dy, x, grad_outputs=ones, create_graph=True)` call; the
result is again an `Exp`, i.e. the pass stays differentiable
(`create_graph=True`), so a further pass over the result is meaningful. -/
def pd : Var → Exp → Exp
  | .X, .var .X => .const 1
  | .T, .var .X => .const 0
  | .X, .var .T => .const 0
  | .T, .var .T => .const 1
  | _, .const _ => .const 0
  | v, .add a b => .add (pd v a) (pd v b)
  | v, .sub a b => .sub (pd v a) (pd v b)
  | v, .mul a b => .add (.mul (pd v a) b) (.mul a (pd v b))
  | v, .neg a => .neg (pd v a)
  | v, .exp a => .mul (.exp a) (pd v a)
  | v, .sin a => .mul (.cos a) (pd v a)
  | v, .cos a => .neg (.mul (.sin a) (pd v a))

/-- The body of `derivative`'s `for i in range(order)` loop: repeatedly
replace `dy` by its first-order derivative with respect to `x`. -/
def derivLoop : Exp → Var → ℕ → Exp
  | dy, _, 0 => dy
  | dy, x, n + 1 => derivLoop (pd x dy) x n

/-- `derivative(dy, x, order)` of the notebook: `order` is a Python `int`, and
`for i in range(order)` runs `max order 0` times, each iteration one
graph-retaining reverse-mode differentiation pass. -/
def derivative (dy : Exp) (x : Var) (order : ℤ) : Exp :=
  derivLoop dy x order.toNat

/-- The regression expression `y = x ** 3` of the spec's DifferentialOperator test. -/
def cube : Exp := .mul (.var .X) (.mul (.var .X) (.var .X))

/-- A batched tensor together with the autodiff bookkeeping relevant here:
its `requires_grad` flag and whether it is a leaf of a computation graph. -/
structure BTensor (n : ℕ) where
  val : Fin n → ℝ
  requiresGrad : Bool
  is_leaf : Bool

/-- `torch.zeros_like(t)`: a fresh all-zero leaf tensor with `requires_grad=False`. -/
def zerosLike {n : ℕ} (_t : BTensor n) : BTensor n :=
  { val := fun _ => 0, requiresGrad := false, is_leaf := true }

/-- An elementwise tensor operation under enabled gradient mode: the result
requires grad iff the input does, and is a leaf iff no grad was required
(a result carrying a `grad_fn` is not a leaf). -/
def btmap {n : ℕ} (g : ℝ → ℝ) (t : BTensor n) : BTensor n :=
  { val := fun i => g (t.val i), requiresGrad := t.requiresGrad, is_leaf := !t.requiresGrad }

/-- Elementwise negation `-t`. -/
def btneg {n : ℕ} (t : BTensor n) : BTensor n := btmap (fun a => -a) t

/-- Elementwise `torch.exp t`. -/
noncomputable def btexp {n : ℕ} (t : BTensor n) : BTensor n := btmap Real.exp t

/-- Scalar multiplication `c * t`. -/
def scalarMul {n : ℕ} (c : ℝ) (t : BTensor n) : BTensor n := btmap (fun a => c * a) t

/-- The autodiff error taxonomy item exercised by the reference code. -/
inductive AutodiffError : Type where
  | graphViolation : AutodiffError

/-- The assignment `t.requires_grad = True`.  PyTorch raises
`you can only change requires_grad flags of leaf variables` whenever the
target tensor is not a leaf. -/
def setRequiresGrad {n : ℕ} (t : BTensor n) : Except AutodiffError (BTensor n) :=
  if t.is_leaf then .ok { t with requiresGrad := true } else .error .graphViolation

/-- `Tensor.mean()` over a batch of `n` values. -/
noncomputable def mean {n : ℕ} (g : Fin n → ℝ) : ℝ := (∑ i, g i) / n

/-- The residual evaluator `f(model, x_f, t_f)` of the notebook:
`u = model(torch.stack((x_f, t_f), axis=1))` builds, per batch element, the
model's graph over the leaves `x_f` (column `Var.X`) and `t_f` (column
`Var.T`); `u_t = derivative(u, t_f, order=1)` and
`u_xx = derivative(u, x_f, order=2)` are the autograd passes, and the returned
tensor holds the elementwise values of `u_t - u_xx`. -/
noncomputable def f (m : Exp) {n : ℕ} (x_f t_f : Fin n → ℝ) : Fin n → ℝ :=
  let u : Exp := m
  let u_t : Exp := derivative u Var.T 1
  let u_xx : Exp := derivative u Var.X 2
  fun i => eval u_t (x_f i) (t_f i) - eval u_xx (x_f i) (t_f i)

/-- `mse_f(model, x_f, t_f) = (f(model, x_f, t_f) ** 2).mean()`. -/
noncomputable def mse_f (m : Exp) {n : ℕ} (x_f t_f : Fin n → ℝ) : ℝ :=
  mean fun i => (f m x_f t_f i) ^ 2

/-- `mse_0(model, x_0, u_0)`: evaluate the model at `(x_0, t_0)` with
`t_0 = torch.zeros_like(x_0)` and return the mean squared mismatch with `u_0`. -/
noncomputable def mse_0 (m : Exp) {n : ℕ} (x_0 u_0 : Fin n → ℝ) : ℝ :=
  let t_0 : Fin n → ℝ := fun _ => 0
  mean fun i => (eval m (x_0 i) (t_0 i) - u_0 i) ^ 2

/-- `mse_b(model, t_b)` of the notebook, with Python exception propagation made
explicit.  `x_b_upper = torch.zeros_like(t_b)` is a fresh leaf, so its
`requires_grad = True` assignment succeeds.  `x_b_lower = 2*np.pi*torch.exp(-t_b)`
is algebraically derived from `t_b`, so whenever `t_b` requires grad the
assignment `x_b_lower.requires_grad = True` targets a non-leaf and raises.
Otherwise the Dirichlet term is the mean square of the prediction at
`(0, t_b)`, and the Neumann term the mean squared difference between the
prediction at `(x_b_lower, t_b)` and the first derivative of the model with
respect to its spatial input at that point. -/
noncomputable def mse_b (m : Exp) {n : ℕ} (t_b : BTensor n) : Except AutodiffError ℝ :=
  match setRequiresGrad (zerosLike t_b) with
  | .error e => .error e
  | .ok x_b_upper =>
    let u_b_upper : Fin n → ℝ := fun i => eval m (x_b_upper.val i) (t_b.val i)
    let mse_dirichlet := mean fun i => (u_b_upper i) ^ 2
    match setRequiresGrad (scalarMul (2 * Real.pi) (btexp (btneg t_b))) with
    | .error e => .error e
    | .ok x_b_lower =>
      let u_b_lower : Fin n → ℝ := fun i => eval m (x_b_lower.val i) (t_b.val i)
      let u_x_b_lower : Fin n → ℝ :=
        fun i => eval (derivative m Var.X 1) (x_b_lower.val i) (t_b.val i)
      let mse_neumann := mean fun i => (u_b_lower i - u_x_b_lower i) ^ 2
      .ok (mse_dirichlet + mse_neumann)

/-- The Dirichlet term of the boundary loss, as a standalone definition
(spec §4.4): mean squared prediction at `(x = 0, t_b)`. -/
noncomputable def mseDirichlet (m : Exp) {n : ℕ} (tb : Fin n → ℝ) : ℝ :=
  mean fun i => (eval m 0 (tb i)) ^ 2

/-- The Neumann term of the boundary loss, as a standalone definition:
mean squared difference at the moving point `(2π e^{-t_b}, t_b)` between the
prediction and the model's first spatial derivative. -/
noncomputable def mseNeumann (m : Exp) {n : ℕ} (tb : Fin n → ℝ) : ℝ :=
  mean fun i =>
    (eval m (2 * Real.pi * Real.exp (-(tb i))) (tb i)
      - eval (derivative m Var.X 1) (2 * Real.pi * Real.exp (-(tb i))) (tb i)) ^ 2

/-- The process-wide training bookkeeping: the global `iter` counter and the
list of `(iteration, loss)` progress reports printed so far. -/
structure TrainState : Type where
  iter : ℕ
  log : List (ℕ × ℝ)

/-- The state at process start: `iter = 0`, nothing reported yet. -/
def initState : TrainState := { iter := 0, log := [] }

/-- The L-BFGS `closure`: recompute `mse_f + mse_0 + mse_b`, increment the
global counter, report `(iter, loss)` on every 50th evaluation, and return the
loss.  (`optimizer.zero_grad()` and `loss.backward(retain_graph=True)` act on
the parameter gradient buffers, which no claim here depends on.)  An exception
raised inside `mse_b` propagates and aborts the evaluation before the loss,
the counter update, or any report. -/
noncomputable def closure (m : Exp) {nf n0 nb : ℕ} (x_f t_f : Fin nf → ℝ)
    (x_0 u_0 : Fin n0 → ℝ) (t : BTensor nb) (s : TrainState) :
    Except AutodiffError (ℝ × TrainState) :=
  match mse_b m t with
  | .error e => .error e
  | .ok lb =>
    let loss := mse_f m x_f t_f + mse_0 m x_0 u_0 + lb
    let it := s.iter + 1
    let lg := if it % 50 = 0 then s.log ++ [(it, loss)] else s.log
    .ok (loss, { iter := it, log := lg })

/-- The optimizer's repeated closure invocations inside `optimizer.step`
(the driver): `k` successive evaluations threading the process-wide state,
stopping at the first raised exception. -/
noncomputable def runEvals (m : Exp) {nf n0 nb : ℕ} (x_f t_f : Fin nf → ℝ)
    (x_0 u_0 : Fin n0 → ℝ) (t : BTensor nb) :
    ℕ → TrainState → Except AutodiffError TrainState
  | 0, s => .ok s
  | k + 1, s =>
    match closure m x_f t_f x_0 u_0 t s with
    | .error e => .error e
    | .ok ls => runEvals m x_f t_f x_0 u_0 t k ls.2

/-- A parameter-bearing submodule of the `Wave` network: an `nn.Linear` with
its weight matrix and bias vector, or the parameterless `nn.Tanh` activation. -/
inductive PModule : Type where
  | lin : (nin nout : ℕ) → (Fin nout → Fin nin → ℝ) → (Fin nout → ℝ) → PModule
  | tanhAct : PModule

/-- Modelled from the spec: `torch.nn.init.xavier_normal_` (the library call is
not part of this repository) fills a weight matrix with fresh draws whose
normal-Xavier distribution is abstracted as a stream `g` of sampled values,
consumed row-major from position `c`. -/
def xavierFill (g : ℕ → ℝ) (c nin nout : ℕ) : Fin nout → Fin nin → ℝ :=
  fun o i => g (c + o.val * nin + i.val)

/-- `init_weights(m)` of the notebook: `if type(m) == nn.Linear`, redraw the
weights by normal-Xavier initialization and fill every bias entry with the
constant `0.01`; any other module is left untouched.  The second component
threads the position in the sampled-value stream. -/
def init_weights (g : ℕ → ℝ) (c : ℕ) : PModule → PModule × ℕ
  | .lin nin nout _w _b =>
    (.lin nin nout (xavierFill g c nin nout) (fun _ => (0.01 : ℝ)), c + nout * nin)
  | mo => (mo, c)

/-- `model.apply(init_weights)`: apply `init_weights` to every submodule in
traversal order, threading the sampler stream position. -/
def applyAll (g : ℕ → ℝ) : List PModule → ℕ → List PModule × ℕ
  | [], c => ([], c)
  | mo :: ms, c =>
    let p := init_weights g c mo
    let q := applyAll g ms p.2
    (p.1 :: q.1, q.2)

/-- The parameter-bearing submodules of `Wave` in traversal order: `linear_in`
(2 → 100), `linear_out` (100 → 1), the five hidden `nn.Linear(100, 100)`
layers of the `ModuleList`, and the `nn.Tanh` activation. -/
def waveModules (win : Fin 100 → Fin 2 → ℝ) (bin : Fin 100 → ℝ)
    (wout : Fin 1 → Fin 100 → ℝ) (bout : Fin 1 → ℝ)
    (wh : Fin 5 → Fin 100 → Fin 100 → ℝ) (bh : Fin 5 → Fin 100 → ℝ) : List PModule :=
  (PModule.lin 2 100 win bin :: PModule.lin 100 1 wout bout ::
    (List.finRange 5).map fun k => PModule.lin 100 100 (wh k) (bh k)) ++ [PModule.tanhAct]

/-- Every bias entry of a linear module equals `v` (vacuous for `Tanh`). -/
def biasConst (v : ℝ) : PModule → Prop
  | .lin _ _ _ b => ∀ o, b o = v
  | .tanhAct => True

/-- `biasConst` holding for every module of a list. -/
def allBias (v : ℝ) : List PModule → Prop
  | [] => True
  | mo :: ms => biasConst v mo ∧ allBias v ms

/-- Concrete identically-zero model for witnesses. -/
def m0 : Exp := .const 0

/-- Concrete all-zero length-1 batch for witnesses. -/
def zeros1 : Fin 1 → ℝ := fun _ => 0

/-- Concrete boundary batch marked as a differentiation variable. -/
def tbGrad : BTensor 1 := { val := fun _ => 0, requiresGrad := true, is_leaf := true }

/-- Concrete boundary batch not requiring grad. -/
def tbFree : BTensor 1 := { val := fun _ => 0, requiresGrad := false, is_leaf := true }

/-- Concrete model `sin(2π x)`, satisfying the initial condition exactly. -/
noncomputable def msin : Exp := .sin (.mul (.const (2 * Real.pi)) (.var .X))

/-- One symbolic reverse-mode pass with respect to `X` computes the true
derivative in the first argument of `eval`. -/
theorem hasDerivAt_eval_X (e : Exp) (x t : ℝ) :
    HasDerivAt (fun y => eval e y t) (eval (pd Var.X e) x t) x := by
  induction e with
  | var v =>
    cases v with
    | X => simpa [eval, pd] using hasDerivAt_id' (𝕜 := ℝ) (x := x)
    | T => simpa [eval, pd] using hasDerivAt_const x t
  | const c => simpa [eval, pd] using hasDerivAt_const x c
  | add a b iha ihb => simpa [eval, pd] using iha.add ihb
  | sub a b iha ihb => simpa [eval, pd] using iha.sub ihb
  | mul a b iha ihb => simpa [eval, pd] using iha.mul ihb
  | neg a iha => simpa [eval, pd] using iha.neg
  | exp a iha => simpa [eval, pd] using iha.exp
  | sin a iha => simpa [eval, pd] using iha.sin
  | cos a iha => simpa [eval, pd, neg_mul] using iha.cos

/-- One symbolic reverse-mode pass with respect to `T` computes the true
derivative in the second argument of `eval`. -/
theorem hasDerivAt_eval_T (e : Exp) (x t : ℝ) :
    HasDerivAt (fun s => eval e x s) (eval (pd Var.T e) x t) t := by
  induction e with
  | var v =>
    cases v with
    | X => simpa [eval, pd] using hasDerivAt_const t x
    | T => simpa [eval, pd] using hasDerivAt_id' (𝕜 := ℝ) (x := t)
  | const c => simpa [eval, pd] using hasDerivAt_const t c
  | add a b iha ihb => simpa [eval, pd] using iha.add ihb
  | sub a b iha ihb => simpa [eval, pd] using iha.sub ihb
  | mul a b iha ihb => simpa [eval, pd] using iha.mul ihb
  | neg a iha => simpa [eval, pd] using iha.neg
  | exp a iha => simpa [eval, pd] using iha.exp
  | sin a iha => simpa [eval, pd] using iha.sin
  | cos a iha => simpa [eval, pd, neg_mul] using iha.cos

/-- Pointwise `deriv` form of `hasDerivAt_eval_X`. -/
theorem deriv_eval_X (e : Exp) (x t : ℝ) :
    deriv (fun y => eval e y t) x = eval (pd Var.X e) x t :=
  (hasDerivAt_eval_X e x t).deriv

/-- Pointwise `deriv` form of `hasDerivAt_eval_T`. -/
theorem deriv_eval_T (e : Exp) (x t : ℝ) :
    deriv (fun s => eval e x s) t = eval (pd Var.T e) x t :=
  (hasDerivAt_eval_T e x t).deriv

/-- Function-level `deriv` form of `hasDerivAt_eval_X`. -/
theorem deriv_fun_eval_X (e : Exp) (t : ℝ) :
    (deriv fun y => eval e y t) = fun x => eval (pd Var.X e) x t :=
  funext fun x => deriv_eval_X e x t

/-- `k` chained reverse-mode passes with respect to `X` compute the `k`-th
iterated derivative in the first argument of `eval`. -/
theorem eval_derivLoop_X (k : ℕ) (e : Exp) (x t : ℝ) :
    eval (derivLoop e Var.X k) x t = iteratedDeriv k (fun y => eval e y t) x := by
  induction k generalizing e with
  | zero => simp [derivLoop, iteratedDeriv_zero]
  | succ k ih =>
    rw [show derivLoop e Var.X (k + 1) = derivLoop (pd Var.X e) Var.X k from rfl,
      ih (pd Var.X e), iteratedDeriv_succ', deriv_fun_eval_X]

/-- A batch mean of squares is non-negative. -/
theorem mean_sq_nonneg {n : ℕ} (g : Fin n → ℝ) : 0 ≤ mean fun i => (g i) ^ 2 := by
  unfold mean
  exact div_nonneg (Finset.sum_nonneg fun i _ => sq_nonneg (g i)) (Nat.cast_nonneg n)

/-- When the boundary batch does not require grad, `mse_b` completes and
returns the Dirichlet term plus the Neumann term. -/
theorem mse_b_ok {n : ℕ} (m : Exp) (t_b : BTensor n) (h : t_b.requiresGrad = false) :
    mse_b m t_b = .ok (mseDirichlet m t_b.val + mseNeumann m t_b.val) := by
  simp [mse_b, setRequiresGrad, zerosLike, scalarMul, btexp, btneg, btmap, h,
    mseDirichlet, mseNeumann]

/-- When the boundary batch requires grad, `mse_b` raises. -/
theorem mse_b_err {n : ℕ} (m : Exp) (t_b : BTensor n) (h : t_b.requiresGrad = true) :
    mse_b m t_b = .error .graphViolation := by
  simp [mse_b, setRequiresGrad, zerosLike, scalarMul, btexp, btneg, btmap, h]

/-- Anatomy of a completed closure evaluation. -/
theorem closure_ok {nf n0 nb : ℕ} (m : Exp) (x_f t_f : Fin nf → ℝ)
    (x_0 u_0 : Fin n0 → ℝ) (t : BTensor nb) (s : TrainState) (l : ℝ) (s' : TrainState)
    (h : closure m x_f t_f x_0 u_0 t s = .ok (l, s')) :
    ∃ lb, mse_b m t = .ok lb ∧
      l = mse_f m x_f t_f + mse_0 m x_0 u_0 + lb ∧
      s'.iter = s.iter + 1 ∧
      s'.log = if s'.iter % 50 = 0 then s.log ++ [(s'.iter, l)] else s.log := by
  cases hb : mse_b m t with
  | error e => simp [closure, hb] at h
  | ok lb =>
    simp only [closure, hb, Except.ok.injEq, Prod.mk.injEq] at h
    obtain ⟨rfl, rfl⟩ := h
    exact ⟨lb, rfl, rfl, rfl, rfl⟩

/-- Evaluating the closure for the identically-zero model on all-zero
singleton batches: it completes with loss `0` and no report at iteration 1. -/
theorem closure_eval0 :
    closure m0 zeros1 zeros1 zeros1 zeros1 tbFree initState =
      .ok (0, { iter := 1, log := [] }) := by
  rw [closure, mse_b_ok m0 tbFree rfl]
  simp [mse_f, mse_0, mseDirichlet, mseNeumann, f, mean, m0, eval, pd, derivative,
    derivLoop, zeros1, tbFree, initState,
    show ((1 : ℤ)).toNat = 1 from rfl, show ((2 : ℤ)).toNat = 2 from rfl]

/-- After `apply(init_weights)`, every bias entry of every linear submodule is
the constant `0.01`, whatever the module list and stream position. -/
theorem allBias_applyAll (g : ℕ → ℝ) (ms : List PModule) :
    ∀ c : ℕ, allBias 0.01 (applyAll g ms c).1 := by
  induction ms with
  | nil => intro c; trivial
  | cons mo ms ih =>
    intro c
    cases mo with
    | lin nin nout w b => exact ⟨fun o => rfl, ih _⟩
    | tanhAct => exact ⟨trivial, ih _⟩

/-- `k` successful driver evaluations advance the counter by exactly `k`. -/
theorem runEvals_iter {nf n0 nb : ℕ} (m : Exp) (x_f t_f : Fin nf → ℝ)
    (x_0 u_0 : Fin n0 → ℝ) (t : BTensor nb) :
    ∀ (k : ℕ) (s s' : TrainState),
      runEvals m x_f t_f x_0 u_0 t k s = .ok s' → s'.iter = s.iter + k := by
  intro k
  induction k with
  | zero =>
    intro s s' h
    simp only [runEvals, Except.ok.injEq] at h
    simp [← h]
  | succ k ih =>
    intro s s' h
    cases hc : closure m x_f t_f x_0 u_0 t s with
    | error e => simp [runEvals, hc] at h
    | ok ls =>
      simp only [runEvals, hc] at h
      obtain ⟨lb, hb, hl, hiter, hlog⟩ :=
        closure_ok m x_f t_f x_0 u_0 t s ls.1 ls.2 (by rw [hc])
      have := ih ls.2 s' h
      omega

/-- Claim C1: whenever the boundary batch `t_b` is itself marked as a
differentiation variable, `mse_b` builds `x_b_lower = 2π e^{-t_b}` as a value
algebraically derived from `t_b`, so flagging `x_b_lower` as an independent
differentiation variable targets a non-leaf tensor and raises the
graph-violation error, aborting the closure evaluation before the Neumann
term is computed. -/
theorem C1_graphViolation {n nf n0 : ℕ} (m : Exp) (t_b : BTensor n)
    (h : t_b.requiresGrad = true) (x_f t_f : Fin nf → ℝ) (x_0 u_0 : Fin n0 → ℝ)
    (s : TrainState) :
    mse_b m t_b = .error .graphViolation ∧
    closure m x_f t_f x_0 u_0 t_b s = .error .graphViolation := by
  refine ⟨mse_b_err m t_b h, ?_⟩
  simp [closure, mse_b_err m t_b h]

/-- Concrete instance of C1: a grad-requiring singleton boundary batch. -/
theorem C1_witness :
    mse_b m0 tbGrad = .error .graphViolation ∧
    closure m0 zeros1 zeros1 zeros1 zeros1 tbGrad initState = .error .graphViolation :=
  C1_graphViolation m0 tbGrad rfl zeros1 zeros1 zeros1 zeros1 initState

/-- Claim C2: when the evaluation does not fail, the Neumann boundary term is
the batch mean of the squared difference between the model's prediction at the
moving point `(2π e^{-t_b}, t_b)` and the model's true first spatial
derivative (Mathlib `deriv` in the spatial argument) at that same point. -/
theorem C2_neumann_moving_point {n : ℕ} (m : Exp) (t_b : BTensor n)
    (h : t_b.requiresGrad = false) :
    mse_b m t_b = .ok (mseDirichlet m t_b.val +
      mean fun i =>
        (eval m (2 * Real.pi * Real.exp (-(t_b.val i))) (t_b.val i)
          - deriv (fun y => eval m y (t_b.val i))
              (2 * Real.pi * Real.exp (-(t_b.val i)))) ^ 2) := by
  have hn : mseNeumann m t_b.val = mean fun i =>
      (eval m (2 * Real.pi * Real.exp (-(t_b.val i))) (t_b.val i)
        - deriv (fun y => eval m y (t_b.val i))
            (2 * Real.pi * Real.exp (-(t_b.val i)))) ^ 2 := by
    unfold mseNeumann
    congr 1
    funext i
    rw [deriv_eval_X]
    rfl
  rw [mse_b_ok m t_b h, hn]

/-- Concrete instance of C2: singleton boundary batch not requiring grad. -/
theorem C2_witness :
    mse_b m0 tbFree = .ok (mseDirichlet m0 tbFree.val +
      mean fun i =>
        (eval m0 (2 * Real.pi * Real.exp (-(tbFree.val i))) (tbFree.val i)
          - deriv (fun y => eval m0 y (tbFree.val i))
              (2 * Real.pi * Real.exp (-(tbFree.val i)))) ^ 2) :=
  C2_neumann_moving_point m0 tbFree rfl

/-- Claim C3: the residual evaluator stacks `(x_f, t_f)` into the model's
input layout, evaluates the model, and returns pointwise exactly the true
first derivative in time minus the true second iterated derivative in space:
the residual `u_t - u_xx`. -/
theorem C3_residual (m : Exp) {n : ℕ} (x_f t_f : Fin n → ℝ) (i : Fin n) :
    f m x_f t_f i =
      deriv (fun s => eval m (x_f i) s) (t_f i)
        - iteratedDeriv 2 (fun y => eval m y (t_f i)) (x_f i) := by
  show eval (derivative m Var.T 1) (x_f i) (t_f i)
      - eval (derivative m Var.X 2) (x_f i) (t_f i) = _
  rw [show derivative m Var.X 2 = derivLoop m Var.X 2 from rfl, eval_derivLoop_X,
    show derivative m Var.T 1 = pd Var.T m from rfl, ← deriv_eval_T]

/-- Claim C4: a completed closure evaluation's loss is exactly
`mse_f + mse_0 + mse_b`, and the boundary loss is exactly its Dirichlet term
plus its Neumann term. -/
theorem C4_additivity {nf n0 nb : ℕ} (m : Exp) (x_f t_f : Fin nf → ℝ)
    (x_0 u_0 : Fin n0 → ℝ) (t_b : BTensor nb) (s : TrainState) (l : ℝ) (s' : TrainState)
    (h : closure m x_f t_f x_0 u_0 t_b s = .ok (l, s')) :
    mse_b m t_b = .ok (mseDirichlet m t_b.val + mseNeumann m t_b.val) ∧
    l = mse_f m x_f t_f + mse_0 m x_0 u_0 +
      (mseDirichlet m t_b.val + mseNeumann m t_b.val) := by
  obtain ⟨lb, hb, hl, _, _⟩ := closure_ok m x_f t_f x_0 u_0 t_b s l s' h
  cases hg : t_b.requiresGrad with
  | true => rw [mse_b_err m t_b hg] at hb; cases hb
  | false =>
    have hok := mse_b_ok m t_b hg
    have hval : lb = mseDirichlet m t_b.val + mseNeumann m t_b.val :=
      Except.ok.inj (hb.symm.trans hok)
    exact ⟨hok, by rw [hl, hval]⟩

/-- Concrete instance of C4 on the zero model and singleton batches. -/
theorem C4_witness :
    mse_b m0 tbFree = .ok (mseDirichlet m0 tbFree.val + mseNeumann m0 tbFree.val) ∧
    (0 : ℝ) = mse_f m0 zeros1 zeros1 + mse_0 m0 zeros1 zeros1 +
      (mseDirichlet m0 tbFree.val + mseNeumann m0 tbFree.val) :=
  C4_additivity m0 zeros1 zeros1 zeros1 zeros1 tbFree initState 0
    { iter := 1, log := [] } closure_eval0

/-- Claim C5: the derivative operator on `y = x^3` at the batch `{-1, 0, 2}`
returns `{3, 0, 12}` for order 1 and `{-6, 0, 12}` for order 2; in general an
order-`k + 1` request chains one further graph-retaining first-order pass onto
an order-`k` request, and an order-`k` request computes the `k`-th iterated
derivative. -/
theorem C5_cube_derivatives :
    (eval (derivative cube Var.X 1) (-1) 0 = 3 ∧
     eval (derivative cube Var.X 1) 0 0 = 0 ∧
     eval (derivative cube Var.X 1) 2 0 = 12) ∧
    (eval (derivative cube Var.X 2) (-1) 0 = -6 ∧
     eval (derivative cube Var.X 2) 0 0 = 0 ∧
     eval (derivative cube Var.X 2) 2 0 = 12) ∧
    (∀ (e : Exp) (v : Var) (k : ℕ),
      derivative e v ((k : ℤ) + 1) = derivative (pd v e) v (k : ℤ)) ∧
    (∀ (e : Exp) (k : ℕ) (x t : ℝ),
      eval (derivative e Var.X (k : ℤ)) x t = iteratedDeriv k (fun y => eval e y t) x) := by
  refine ⟨⟨?_, ?_, ?_⟩, ⟨?_, ?_, ?_⟩, ?_, ?_⟩
  · norm_num [derivative, cube, pd, eval, derivLoop, show ((1 : ℤ)).toNat = 1 from rfl]
  · norm_num [derivative, cube, pd, eval, derivLoop, show ((1 : ℤ)).toNat = 1 from rfl]
  · norm_num [derivative, cube, pd, eval, derivLoop, show ((1 : ℤ)).toNat = 1 from rfl]
  · norm_num [derivative, cube, pd, eval, derivLoop, show ((2 : ℤ)).toNat = 2 from rfl]
  · norm_num [derivative, cube, pd, eval, derivLoop, show ((2 : ℤ)).toNat = 2 from rfl]
  · norm_num [derivative, cube, pd, eval, derivLoop, show ((2 : ℤ)).toNat = 2 from rfl]
  · intro e v k
    show derivLoop e v ((k : ℤ) + 1).toNat = derivLoop (pd v e) v ((k : ℤ)).toNat
    rw [show ((k : ℤ) + 1) = ((k + 1 : ℕ) : ℤ) by push_cast; ring,
      Int.toNat_natCast, Int.toNat_natCast]
    rfl
  · intro e k x t
    show eval (derivLoop e Var.X ((k : ℤ)).toNat) x t = _
    rw [Int.toNat_natCast]
    exact eval_derivLoop_X k e x t

/-- Claim C6: every completed closure evaluation increments the process-wide
counter by exactly one; the counter is `0` at process start and any number of
driver-invoked evaluations only ever advance it; and a `(counter, loss)`
progress report is appended exactly when the incremented counter is a multiple
of 50. -/
theorem C6_iteration_counter {nf n0 nb : ℕ} (m : Exp) (x_f t_f : Fin nf → ℝ)
    (x_0 u_0 : Fin n0 → ℝ) (t : BTensor nb) (s : TrainState) (l : ℝ) (s' : TrainState)
    (h : closure m x_f t_f x_0 u_0 t s = .ok (l, s')) :
    s'.iter = s.iter + 1 ∧
    initState.iter = 0 ∧
    (s'.iter % 50 = 0 → s'.log = s.log ++ [(s'.iter, l)]) ∧
    (s'.iter % 50 ≠ 0 → s'.log = s.log) ∧
    (∀ (k : ℕ) (s₀ s₁ : TrainState),
      runEvals m x_f t_f x_0 u_0 t k s₀ = .ok s₁ → s₁.iter = s₀.iter + k) := by
  obtain ⟨lb, hb, hl, hiter, hlog⟩ := closure_ok m x_f t_f x_0 u_0 t s l s' h
  refine ⟨hiter, rfl, ?_, ?_, runEvals_iter m x_f t_f x_0 u_0 t⟩
  · intro hdiv; rw [hlog, if_pos hdiv]
  · intro hdiv; rw [hlog, if_neg hdiv]

/-- Concrete instance of C6 on the zero model and singleton batches. -/
theorem C6_witness :
    ({ iter := 1, log := [] } : TrainState).iter = initState.iter + 1 ∧
    initState.iter = 0 ∧
    (({ iter := 1, log := [] } : TrainState).iter % 50 = 0 →
      ({ iter := 1, log := [] } : TrainState).log =
        initState.log ++ [(({ iter := 1, log := [] } : TrainState).iter, (0 : ℝ))]) ∧
    (({ iter := 1, log := [] } : TrainState).iter % 50 ≠ 0 →
      ({ iter := 1, log := [] } : TrainState).log = initState.log) ∧
    (∀ (k : ℕ) (s₀ s₁ : TrainState),
      runEvals m0 zeros1 zeros1 zeros1 zeros1 tbFree k s₀ = .ok s₁ →
        s₁.iter = s₀.iter + k) :=
  C6_iteration_counter m0 zeros1 zeros1 zeros1 zeros1 tbFree initState 0
    { iter := 1, log := [] } closure_eval0

/-- Claim C7: `mse_0` evaluates the model at `(x_0, 0)` by pairing `x_0` with
a freshly constructed all-zero time batch, and the loss is exactly zero
whenever the model outputs `sin(2π x)` at `t = 0` at every sampled `x_0`
(targets `u_0 = sin(2π x_0)`). -/
theorem C7_initial_loss_zero {n : ℕ} (m : Exp) (x_0 u_0 : Fin n → ℝ)
    (hu : ∀ i, u_0 i = Real.sin (2 * Real.pi * x_0 i))
    (hm : ∀ i, eval m (x_0 i) 0 = Real.sin (2 * Real.pi * x_0 i)) :
    mse_0 m x_0 u_0 = mean (fun i => (eval m (x_0 i) 0 - u_0 i) ^ 2) ∧
    mse_0 m x_0 u_0 = 0 := by
  refine ⟨rfl, ?_⟩
  have hz : ∀ i : Fin n, (eval m (x_0 i) 0 - u_0 i) ^ 2 = 0 := by
    intro i; rw [hm i, hu i]; ring
  show mean (fun i => (eval m (x_0 i) 0 - u_0 i) ^ 2) = 0
  unfold mean
  rw [Finset.sum_eq_zero fun i _ => hz i, zero_div]

/-- Concrete instance of C7: the model `sin(2π x)` on a singleton batch. -/
theorem C7_witness :
    mse_0 msin zeros1 (fun _ => Real.sin (2 * Real.pi * 0)) =
      mean (fun i => (eval msin (zeros1 i) 0 - Real.sin (2 * Real.pi * 0)) ^ 2) ∧
    mse_0 msin zeros1 (fun _ => Real.sin (2 * Real.pi * 0)) = 0 :=
  C7_initial_loss_zero msin zeros1 (fun _ => Real.sin (2 * Real.pi * 0))
    (fun _ => rfl) (fun _ => rfl)

/-- Claim C8: each of the three sub-losses is a mean (or sum of means) of
squared values and hence non-negative, so the loss a completed closure
evaluation returns is non-negative. -/
theorem C8_loss_nonneg {nf n0 nb : ℕ} (m : Exp) (x_f t_f : Fin nf → ℝ)
    (x_0 u_0 : Fin n0 → ℝ) (t_b : BTensor nb) (s : TrainState) (l : ℝ) (s' : TrainState)
    (h : closure m x_f t_f x_0 u_0 t_b s = .ok (l, s')) :
    0 ≤ mse_f m x_f t_f ∧ 0 ≤ mse_0 m x_0 u_0 ∧
    (∃ lb, mse_b m t_b = .ok lb ∧ 0 ≤ lb) ∧ 0 ≤ l := by
  obtain ⟨lb, hb, hl, _, _⟩ := closure_ok m x_f t_f x_0 u_0 t_b s l s' h
  have h1 : 0 ≤ mse_f m x_f t_f := mean_sq_nonneg (f m x_f t_f)
  have h2 : 0 ≤ mse_0 m x_0 u_0 := mean_sq_nonneg (fun i => eval m (x_0 i) 0 - u_0 i)
  have h3 : 0 ≤ lb := by
    cases hg : t_b.requiresGrad with
    | true => rw [mse_b_err m t_b hg] at hb; cases hb
    | false =>
      have h' : lb = mseDirichlet m t_b.val + mseNeumann m t_b.val :=
        Except.ok.inj (hb.symm.trans (mse_b_ok m t_b hg))
      rw [h']
      exact add_nonneg (mean_sq_nonneg (fun i => eval m 0 (t_b.val i)))
        (mean_sq_nonneg (fun i =>
          eval m (2 * Real.pi * Real.exp (-(t_b.val i))) (t_b.val i)
            - eval (derivative m Var.X 1) (2 * Real.pi * Real.exp (-(t_b.val i))) (t_b.val i)))
  exact ⟨h1, h2, ⟨lb, hb, h3⟩, by rw [hl]; exact add_nonneg (add_nonneg h1 h2) h3⟩

/-- Concrete instance of C8 on the zero model and singleton batches. -/
theorem C8_witness :
    0 ≤ mse_f m0 zeros1 zeros1 ∧ 0 ≤ mse_0 m0 zeros1 zeros1 ∧
    (∃ lb, mse_b m0 tbFree = .ok lb ∧ 0 ≤ lb) ∧ (0 : ℝ) ≤ 0 :=
  C8_loss_nonneg m0 zeros1 zeros1 zeros1 zeros1 tbFree initState 0
    { iter := 1, log := [] } closure_eval0

/-- Claim C9: the initializer modifies exactly the linear layers — each linear
layer's weights become the freshly sampled (normal-Xavier, modelled by the
stream) values and its bias is filled with the constant `0.01`, the activation
is returned untouched — and after applying it over the `Wave` module list
every bias entry equals `0.01`. -/
theorem C9_init_weights (g : ℕ → ℝ) (c : ℕ) :
    (∀ (nin nout : ℕ) (w : Fin nout → Fin nin → ℝ) (b : Fin nout → ℝ),
      init_weights g c (.lin nin nout w b) =
        (.lin nin nout (xavierFill g c nin nout) (fun _ => (0.01 : ℝ)), c + nout * nin)) ∧
    init_weights g c .tanhAct = (.tanhAct, c) ∧
    (∀ (win : Fin 100 → Fin 2 → ℝ) (bin : Fin 100 → ℝ)
      (wout : Fin 1 → Fin 100 → ℝ) (bout : Fin 1 → ℝ)
      (wh : Fin 5 → Fin 100 → Fin 100 → ℝ) (bh : Fin 5 → Fin 100 → ℝ),
      allBias 0.01 (applyAll g (waveModules win bin wout bout wh bh) c).1) :=
  ⟨fun _ _ _ _ => rfl, rfl, fun _ _ _ _ _ _ => allBias_applyAll g _ c⟩

/-- Claim C10: a derivative request with order `0`, or any order below `1`,
runs the differentiation loop zero times and returns the tensor unchanged. -/
theorem C10_order_zero (dy : Exp) (v : Var) (o : ℤ) (h : o ≤ 0) :
    derivative dy v o = dy := by
  unfold derivative
  rw [Int.toNat_of_nonpos h]
  rfl

/-- Concrete instance of C10 at order `0`. -/
theorem C10_witness :
    (0 : ℤ) ≤ 0 ∧ derivative (Exp.var Var.X) Var.X 0 = Exp.var Var.X :=
  ⟨le_refl 0, C10_order_zero (Exp.var Var.X) Var.X 0 (le_refl 0)⟩

end PINN
